import Mathlib

/-!
# Verification of the kubeoptic navigation state machine, event router and
# streaming log viewer

Shallow embedding of the core of `kubeoptic`:

* `internal/tui/navigation/navigation.go` — the `NavigationState` struct and
  its operations (`NavigateToView`, `NavigateBack`, `NextPanel`, `PrevPanel`,
  `EnterSearchMode`, `ExitSearchMode`, `HandleNavigation`, `IsValidTransition`).
* `internal/tui/events` (event router) — `handleKeyEvent`, `handleSearchKeys`
  and the view-specific key handlers.
* the `LogViewer` component — buffer append (`appendLogData`), search
  recomputation (`updateFilteredLines`), match navigation
  (`nextSearchResult` / `prevSearchResult` / `jumpToSearchResult`), search
  history (`addToSearchHistory` / `executeSearch`) and the stream chunk
  handler (`handleLogChunk`).

Go slices of strings become `List String`, Go `int` indices that are
invariantly non-negative become `Nat`, Go `error` becomes `Option String`,
and the `bubbletea` command returned by an operation is modelled as a `Bool`
recording whether the operation returned a non-nil command.  The third-party
`bubbles` viewport widget (out of scope for the program itself) is modelled
abstractly: `setYOffset` stores the requested offset, `gotoBottom` records
that the viewport was scrolled to the bottom.
-/

namespace Kubeoptic

/-- Embeds `models.ViewType`: the four top-level screens. -/
inductive ViewType where
  | ContextView
  | NamespaceView
  | PodView
  | LogView
deriving DecidableEq, Repr

/-- Embeds `navigation.FocusState`: which component has focus in multi-panel views. -/
inductive FocusState where
  | FocusContext
  | FocusNamespace
  | FocusPod
  | FocusSearch
  | FocusLog
  | FocusStatusBar
deriving DecidableEq, Repr

/-- Embeds `navigation.NavigationState` (the `tea.Cmd`-producing helper methods are
modelled below as functions returning the new state together with a `Bool`
that is `true` exactly when the Go method returns a non-nil `tea.Cmd`). -/
structure NavigationState where
  currentView : ViewType
  focusedPanel : FocusState
  previousView : ViewType
  helpVisible : Bool
  searchMode : Bool
  navigationHistory : List ViewType
deriving DecidableEq, Repr

/-- Embeds `navigation.NewNavigationState`. -/
def newNavigationState : NavigationState :=
  { currentView := .ContextView
    focusedPanel := .FocusContext
    previousView := .ContextView
    helpVisible := false
    searchMode := false
    navigationHistory := [.ContextView] }

/-- The focus that `NavigateToView`'s inner `switch view` assigns for each
entered view (the canonical entry panel of that view). -/
def entryFocus : ViewType → FocusState
  | .ContextView => .FocusContext
  | .NamespaceView => .FocusNamespace
  | .PodView => .FocusPod
  | .LogView => .FocusLog

/-- Embeds `NavigationState.NavigateToView`: changes the current view, updates the
history, resets focus for the new view and clears search mode; returns a
non-nil command exactly when the view actually changed. -/
def navigateToView (n : NavigationState) (view : ViewType) :
    NavigationState × Bool :=
  if n.currentView ≠ view then
    ({ n with
        previousView := n.currentView
        currentView := view
        navigationHistory := n.navigationHistory ++ [view]
        focusedPanel := entryFocus view
        searchMode := false }, true)
  else (n, false)

/-- Embeds `NavigationState.NavigateBack`: fixed back-map
Log→Pod, Pod→Namespace, Namespace→Context, Context→none. -/
def navigateBack (n : NavigationState) : NavigationState × Bool :=
  match n.currentView with
  | .LogView => navigateToView n .PodView
  | .PodView => navigateToView n .NamespaceView
  | .NamespaceView => navigateToView n .ContextView
  | .ContextView => (n, false)

/-- Embeds `NavigationState.NextPanel`. -/
def nextPanel (n : NavigationState) : NavigationState × Bool :=
  match n.currentView with
  | .ContextView => (n, false)
  | .LogView => (n, false)
  | .NamespaceView =>
    (match n.focusedPanel with
      | .FocusContext => ({ n with focusedPanel := .FocusNamespace }, true)
      | .FocusNamespace => ({ n with focusedPanel := .FocusContext }, true)
      | _ => (n, true))
  | .PodView =>
    (match n.focusedPanel with
      | .FocusContext => ({ n with focusedPanel := .FocusNamespace }, true)
      | .FocusNamespace => ({ n with focusedPanel := .FocusPod }, true)
      | .FocusPod => ({ n with focusedPanel := .FocusContext }, true)
      | _ => (n, true))

/-- Embeds `NavigationState.PrevPanel`. -/
def prevPanel (n : NavigationState) : NavigationState × Bool :=
  match n.currentView with
  | .ContextView => (n, false)
  | .LogView => (n, false)
  | .NamespaceView =>
    (match n.focusedPanel with
      | .FocusContext => ({ n with focusedPanel := .FocusNamespace }, true)
      | .FocusNamespace => ({ n with focusedPanel := .FocusContext }, true)
      | _ => (n, true))
  | .PodView =>
    (match n.focusedPanel with
      | .FocusContext => ({ n with focusedPanel := .FocusPod }, true)
      | .FocusNamespace => ({ n with focusedPanel := .FocusContext }, true)
      | .FocusPod => ({ n with focusedPanel := .FocusNamespace }, true)
      | _ => (n, true))

/-- Embeds `NavigationState.ToggleHelp` (always returns a command). -/
def toggleHelp (n : NavigationState) : NavigationState × Bool :=
  ({ n with helpVisible := !n.helpVisible }, true)

/-- Embeds `NavigationState.EnterSearchMode` (always returns a command). -/
def enterSearchMode (n : NavigationState) : NavigationState × Bool :=
  ({ n with searchMode := true, focusedPanel := .FocusSearch }, true)

/-- Embeds `NavigationState.ExitSearchMode` (always returns a command). -/
def exitSearchMode (n : NavigationState) : NavigationState × Bool :=
  ({ n with
      searchMode := false
      focusedPanel :=
        match n.currentView with
        | .ContextView => .FocusContext
        | .NamespaceView => .FocusNamespace
        | .PodView => .FocusPod
        | .LogView => .FocusLog }, true)

/-- Embeds `navigation.ValidTransitions` (every rule's `Condition` is the constant
`true` function, so only the `(From, To)` pairs matter). -/
def validTransitions : List (ViewType × ViewType) :=
  [ (.ContextView, .NamespaceView)
  , (.NamespaceView, .PodView)
  , (.PodView, .LogView)
  , (.LogView, .PodView)
  , (.PodView, .NamespaceView)
  , (.NamespaceView, .ContextView) ]

/-- Embeds `navigation.IsValidTransition` (`from`/`to` in Go). -/
def IsValidTransition (src dst : ViewType) : Bool :=
  validTransitions.any (fun t => t.1 = src ∧ t.2 = dst)

/-- The logical key actions consumed by the router and the navigation state
machine.  Each constructor stands for one binding of `keys.DefaultKeyMap`
(`quit` = q/ctrl+c, `help` = ?/F1, `back` = esc/backspace, `nextPanelKey` =
tab, `prevPanelKey` = shift+tab, `searchKey` = /, `clearSearch`,
`switchContext` = c, `selectNamespace` = n, `selectPod` = p, `enter`,
`refresh`, `follow`, `saveLogs`, `toggleWrap`, scrolling keys, and `char c`
for any other rune). -/
inductive KeyAction where
  | quit
  | help
  | back
  | enter
  | nextPanelKey
  | prevPanelKey
  | searchKey
  | clearSearch
  | switchContext
  | selectNamespace
  | selectPod
  | refresh
  | follow
  | saveLogs
  | toggleWrap
  | scrollKey
  | char (c : Char)
deriving DecidableEq, Repr

/-- Embeds `NavigationState.HandleNavigation`: dispatches navigation-related keys. -/
def handleNavigation (n : NavigationState) (k : KeyAction) :
    NavigationState × Bool :=
  match k with
  | .back => navigateBack n
  | .nextPanelKey => nextPanel n
  | .prevPanelKey => prevPanel n
  | .searchKey => enterSearchMode n
  | .help => toggleHelp n
  | .switchContext => navigateToView n .ContextView
  | .selectNamespace => navigateToView n .NamespaceView
  | .selectPod => navigateToView n .PodView
  | _ => (n, false)

/-- Outcome of routing one key event through `EventRouter.handleKeyEvent`. -/
inductive RouteOutcome where
  | consumedGlobal
  | consumedNav
  | consumedSearch
  | consumedView
  | forwarded
deriving DecidableEq, Repr

/-- Embeds `keys.HandleGlobalKeys`: quit and help are intercepted in any state. -/
def handleGlobalKeys (k : KeyAction) : Bool :=
  k = .quit || k = .help

/-- Embeds `EventRouter.handleSearchKeys`: back / enter / clear-search exit search
mode (each is consumed), everything else is left to the search input. -/
def handleSearchKeys (n : NavigationState) (k : KeyAction) :
    NavigationState × RouteOutcome :=
  match k with
  | .back => ((exitSearchMode n).1, .consumedSearch)
  | .enter => ((exitSearchMode n).1, .consumedSearch)
  | .clearSearch => ((exitSearchMode n).1, .consumedSearch)
  | _ => (n, .forwarded)

/-- Embeds `EventRouter.handleContextViewKeys`. -/
def handleContextViewKeys (n : NavigationState) (k : KeyAction) :
    NavigationState × RouteOutcome :=
  match k with
  | .enter => ((navigateToView n .NamespaceView).1, .consumedView)
  | .refresh => (n, .consumedView)
  | _ => (n, .forwarded)

/-- Embeds `EventRouter.handleNamespaceViewKeys`. -/
def handleNamespaceViewKeys (n : NavigationState) (k : KeyAction) :
    NavigationState × RouteOutcome :=
  match k with
  | .enter =>
    if n.focusedPanel = .FocusNamespace then
      ((navigateToView n .PodView).1, .consumedView)
    else (n, .forwarded)
  | .refresh => (n, .consumedView)
  | _ => (n, .forwarded)

/-- Embeds `EventRouter.handlePodViewKeys`. -/
def handlePodViewKeys (n : NavigationState) (k : KeyAction) :
    NavigationState × RouteOutcome :=
  match k with
  | .enter =>
    if n.focusedPanel = .FocusPod then
      ((navigateToView n .LogView).1, .consumedView)
    else (n, .forwarded)
  | .refresh => (n, .consumedView)
  | .clearSearch =>
    if n.searchMode then ((exitSearchMode n).1, .consumedView)
    else (n, .consumedView)
  | _ => (n, .forwarded)

/-- Embeds `EventRouter.handleLogViewKeys`. -/
def handleLogViewKeys (n : NavigationState) (k : KeyAction) :
    NavigationState × RouteOutcome :=
  match k with
  | .follow => (n, .consumedView)
  | .saveLogs => (n, .consumedView)
  | .toggleWrap => (n, .consumedView)
  | _ => (n, .forwarded)

/-- Embeds `EventRouter.handleKeyEvent`: global keys first, then navigation keys
(`HandleNavigation` runs and is considered to have consumed the key exactly
when it returns a non-nil command), then the search-mode branch, then the
view-specific handlers. -/
def handleKeyEvent (n : NavigationState) (k : KeyAction) :
    NavigationState × RouteOutcome :=
  if handleGlobalKeys k then (n, .consumedGlobal)
  else
    let r := handleNavigation n k
    if r.2 then (r.1, .consumedNav)
    else if r.1.searchMode then handleSearchKeys r.1 k
    else
      match r.1.currentView with
      | .ContextView => handleContextViewKeys r.1 k
      | .NamespaceView => handleNamespaceViewKeys r.1 k
      | .PodView => handlePodViewKeys r.1 k
      | .LogView => handleLogViewKeys r.1 k

/-! ## Streaming log viewer (`components.LogViewer`) -/

/-- Embeds `maxLogLines`: maximum lines kept in the buffer. -/
def maxLogLines : Nat := 10000

/-- Embeds `maxSearchResults`: cap on recorded search-match indices. -/
def maxSearchResults : Nat := 1000

/-- Embeds `maxSearchHistory`: cap on the search-history length. -/
def maxSearchHistory : Nat := 50

/-- Embeds `strings.ToLower` (per-character lowering; the claims do not depend on
locale-specific Unicode case folding). -/
def strToLower (s : String) : String :=
  ⟨s.data.map Char.toLower⟩

/-- Split a character list at every occurrence of `sep`; the embedding of
`strings.Split(data, sep)` for the single-character separator the code
uses. -/
def splitChar (sep : Char) : List Char → List (List Char)
  | [] => [[]]
  | c :: rest =>
    match splitChar sep rest with
    | [] => if c = sep then [[], [c]] else [[c]]
    | h :: t => if c = sep then [] :: h :: t else (c :: h) :: t

/-- Embeds `strings.Split(data, "\n")`. -/
def splitLines (data : String) : List String :=
  (splitChar '\x0a' data.data).map (fun l => String.mk l)

/-- Holds (as `true`) iff `sub` occurs as a contiguous sublist of the second argument;
helper for `strings.Contains`. -/
def subAt : List Char → List Char → Bool
  | sub, [] => sub.isEmpty
  | sub, c :: rest => sub.isPrefixOf (c :: rest) || subAt sub rest

/-- Embeds `strings.Contains(s, sub)`. -/
def strContains (s sub : String) : Bool :=
  subAt sub.data s.data

/-- The third-party `bubbles` viewport widget, modelled abstractly (it is an
external collaborator): `setYOffset` stores the offset requested by the log
viewer, `gotoBottom` records a scroll to the bottom of the content. -/
structure Viewport where
  height : Int
  yOffset : Int
  atBottom : Bool
deriving DecidableEq, Repr

/-- Embeds `viewport.SetYOffset`. -/
def Viewport.setYOffset (v : Viewport) (t : Int) : Viewport :=
  { v with yOffset := t, atBottom := false }

/-- Embeds `viewport.GotoBottom`. -/
def Viewport.gotoBottom (v : Viewport) : Viewport :=
  { v with atBottom := true }

/-- Embeds `components.LogViewer` (the fields the modelled operations read or
write; the stream handle, styling, sizes and toggles not touched by the
claims are omitted).  `searchInputValue` models `searchInput.Value()` of the
`textinput` sub-component. -/
structure LogViewer where
  logLines : List String := []
  filteredLines : List String := []
  followMode : Bool := true
  searchMode : Bool := false
  searchQuery : String := ""
  searchResults : List Nat := []
  currentResult : Nat := 0
  searchHistory : List String := []
  searchInputValue : String := ""
  viewport : Viewport := { height := 0, yOffset := 0, atBottom := false }
  lastError : Option String := none
  showError : Bool := false
deriving DecidableEq, Repr

/-- One iteration of the `appendLogData` loop body on the `logLines` buffer
(append, then trim to the most recent `maxLogLines` when over capacity). -/
def pushLine (buf : List String) (line : String) : List String :=
  let b := buf ++ [line]
  if maxLogLines < b.length then b.drop (b.length - maxLogLines) else b

/-- The `appendLogData` loop body including the `if line == "" { continue }`
skip. -/
def pushLineSkip (buf : List String) (line : String) : List String :=
  if line = "" then buf else pushLine buf line

/-- The body of the `updateFilteredLines` scan loop: a matching line is
appended to the filtered display list, and its buffer index is recorded
while fewer than `maxSearchResults` indices have been recorded. -/
def searchStep (searchLower : String) (acc : List String × List Nat)
    (il : Nat × String) : List String × List Nat :=
  if strContains (strToLower il.2) searchLower then
    (acc.1 ++ [il.2],
      if acc.2.length < maxSearchResults then acc.2 ++ [il.1] else acc.2)
  else acc

/-- Embeds `LogViewer.updateFilteredLines`: empty query is a pass-through; otherwise
one oldest-to-newest scan of the buffer with `searchStep`. -/
def LogViewer.updateFilteredLines (lv : LogViewer) : LogViewer :=
  if lv.searchQuery = "" then
    { lv with filteredLines := lv.logLines, searchResults := [] }
  else
    let r := lv.logLines.enum.foldl (searchStep (strToLower lv.searchQuery))
      ([], [])
    { lv with filteredLines := r.1, searchResults := r.2 }

/-- Embeds `LogViewer.appendLogData`: split the chunk on newlines, push each
non-empty line onto the ring, then recompute the filtered view once. -/
def LogViewer.appendLogData (lv : LogViewer) (data : String) : LogViewer :=
  LogViewer.updateFilteredLines
    { lv with logLines := (splitLines data).foldl pushLineSkip lv.logLines }

/-- Embeds `LogViewer.scrollToBottom`. -/
def LogViewer.scrollToBottom (lv : LogViewer) : LogViewer :=
  { lv with viewport := lv.viewport.gotoBottom }

/-- Embeds `LogViewer.setError`. -/
def LogViewer.setError (lv : LogViewer) (e : String) : LogViewer :=
  { lv with lastError := some e, showError := true }

/-- Embeds `tui.LogChunkMsg` (`Error` is `Option String`). -/
structure LogChunkMsg where
  data : String := ""
  eof : Bool := false
  error : Option String := none
deriving DecidableEq, Repr

/-- Embeds `LogViewer.handleLogChunk`; the returned `Bool` is `true` exactly when
the handler returns `lv.streamLogs()` (a further read is issued). -/
def LogViewer.handleLogChunk (lv : LogViewer) (msg : LogChunkMsg) :
    LogViewer × Bool :=
  match msg.error with
  | some e => (lv.setError e, true)
  | none =>
    if msg.eof then (lv, false)
    else
      let lv1 := lv.appendLogData msg.data
      let lv2 := if lv1.followMode then lv1.scrollToBottom else lv1
      (lv2, true)

/-- Embeds `LogViewer.jumpToSearchResult`: the Go guard is
`index < 0 || index >= len(lv.searchResults)`; the index is invariantly
non-negative (`Nat` here), so only the upper check remains.  `targetLine`
is `lineNum - viewportHeight/2` clamped at zero (`Int.tdiv` is Go's
truncating integer division). -/
def LogViewer.jumpToSearchResult (lv : LogViewer) (index : Nat) : LogViewer :=
  if h : index < lv.searchResults.length then
    let lineNum := lv.searchResults.get ⟨index, h⟩
    let target : Int := (lineNum : Int) - (lv.viewport.height).tdiv 2
    { lv with viewport := lv.viewport.setYOffset (if target < 0 then 0 else target) }
  else lv

/-- Embeds `LogViewer.nextSearchResult`. -/
def LogViewer.nextSearchResult (lv : LogViewer) : LogViewer :=
  if lv.searchResults.length = 0 then lv
  else
    let c := (lv.currentResult + 1) % lv.searchResults.length
    LogViewer.jumpToSearchResult { lv with currentResult := c } c

/-- Embeds `LogViewer.prevSearchResult`: Go computes `(c - 1 + n) % n` over `int`
with `c ≥ 0`; over `Nat` this is written `(c + n - 1) % n`, which agrees
with the Go value for every `c ≥ 0`. -/
def LogViewer.prevSearchResult (lv : LogViewer) : LogViewer :=
  if lv.searchResults.length = 0 then lv
  else
    let c := (lv.currentResult + lv.searchResults.length - 1) %
      lv.searchResults.length
    LogViewer.jumpToSearchResult { lv with currentResult := c } c

/-- Embeds `LogViewer.updateSearchResults`. -/
def LogViewer.updateSearchResults (lv : LogViewer) : LogViewer :=
  let lv1 := lv.updateFilteredLines
  if 0 < lv1.searchResults.length then
    LogViewer.jumpToSearchResult { lv1 with currentResult := 0 } 0
  else lv1

/-- Embeds `LogViewer.addToSearchHistory`: skip queries already present, append,
and drop the oldest entry once the length exceeds `maxSearchHistory`. -/
def LogViewer.addToSearchHistory (lv : LogViewer) (query : String) : LogViewer :=
  if query ∈ lv.searchHistory then lv
  else
    let h := lv.searchHistory ++ [query]
    { lv with searchHistory := if maxSearchHistory < h.length then h.drop 1 else h }

/-- Embeds `LogViewer.enterSearchMode` (the `textinput` focus call is external). -/
def LogViewer.enterSearchMode (lv : LogViewer) : LogViewer :=
  { lv with searchMode := true }

/-- Embeds `LogViewer.exitSearchMode` (the `textinput` blur call is external). -/
def LogViewer.exitSearchMode (lv : LogViewer) : LogViewer :=
  { lv with searchMode := false }

/-- Embeds `LogViewer.executeSearch`: on a non-empty input value, set the query,
record it in the history and recompute the results; always exit search
mode. -/
def LogViewer.executeSearch (lv : LogViewer) : LogViewer :=
  let query := lv.searchInputValue
  let lv1 :=
    if query ≠ "" then
      LogViewer.updateSearchResults
        (LogViewer.addToSearchHistory { lv with searchQuery := query } query)
    else lv
  lv1.exitSearchMode

/-! ## Helper lemmas about the navigation operations -/

/-- Embeds `NavigateToView` on a view different from the current one: the update is
applied unconditionally (the transition table is never consulted). -/
theorem navigateToView_of_ne (n : NavigationState) (v : ViewType)
    (hne : v ≠ n.currentView) :
    navigateToView n v =
      ({ n with
          previousView := n.currentView
          currentView := v
          navigationHistory := n.navigationHistory ++ [v]
          focusedPanel := entryFocus v
          searchMode := false }, true) := by
  unfold navigateToView
  rw [if_pos (Ne.symm hne)]

/-- Embeds `NavigateToView` on the current view is a no-op returning no command. -/
theorem navigateToView_self (n : NavigationState) (v : ViewType)
    (he : v = n.currentView) : navigateToView n v = (n, false) := by
  subst he
  unfold navigateToView
  simp

/-- A navigation operation dispatched by `HandleNavigation` that returns a
nil command leaves the session unchanged. -/
theorem handleNavigation_no_cmd (n : NavigationState) (k : KeyAction)
    (h : (handleNavigation n k).2 = false) : (handleNavigation n k).1 = n := by
  have hnav : ∀ v, (navigateToView n v).2 = false → (navigateToView n v).1 = n := by
    intro v hv
    by_cases hvv : v = n.currentView
    · rw [navigateToView_self n v hvv]
    · rw [navigateToView_of_ne n v hvv] at hv
      simp at hv
  cases k <;> simp only [handleNavigation] at h ⊢
  case back =>
    unfold navigateBack at h ⊢
    revert h
    cases n.currentView <;> intro h
    · rfl
    · exact hnav _ h
    · exact hnav _ h
    · exact hnav _ h
  case nextPanelKey =>
    unfold nextPanel at h ⊢
    revert h
    cases n.currentView <;> cases n.focusedPanel <;> intro h <;>
      first | rfl | simp at h
  case prevPanelKey =>
    unfold prevPanel at h ⊢
    revert h
    cases n.currentView <;> cases n.focusedPanel <;> intro h <;>
      first | rfl | simp at h
  case searchKey => simp [enterSearchMode] at h
  case help => simp [toggleHelp] at h
  case switchContext => exact hnav _ h
  case selectNamespace => exact hnav _ h
  case selectPod => exact hnav _ h

/-! ## Claim theorems: navigation state machine -/

/-- C1, counterexample: from the initial session (current = Context) the
request `NavigateToView(Log)` has a `(current, to)` pair absent from the
transition table, yet it changes both `current` and the history — refuting
"any transition request whose (current, to) pair is absent from the table
leaves current, focused, and history unchanged". -/
theorem navigateToView_ignores_table_counterexample :
    IsValidTransition newNavigationState.currentView .LogView = false ∧
    (navigateToView newNavigationState .LogView).1.currentView = .LogView ∧
    (navigateToView newNavigationState .LogView).1.navigationHistory =
      [.ContextView, .LogView] ∧
    (navigateToView newNavigationState .LogView).1.focusedPanel = .FocusLog := by
  decide

/-- C1, amended: `NavigateToView`/`HandleNavigation` never consult the
transition table.  Every request whose target differs from the current
screen is applied — even when the `(current, to)` pair is absent from the
table, `current` becomes `to`, `to` is appended to the history and focus is
reset — and only a request whose target equals the current screen leaves
`current`, `focused` and `history` unchanged. -/
theorem navigateToView_ignores_table (n : NavigationState) (v : ViewType) :
    (IsValidTransition n.currentView v = false → v ≠ n.currentView →
      (navigateToView n v).1.currentView = v ∧
      (navigateToView n v).1.navigationHistory = n.navigationHistory ++ [v] ∧
      (navigateToView n v).1.focusedPanel = entryFocus v) ∧
    (v = n.currentView → navigateToView n v = (n, false)) := by
  constructor
  · intro _ hne
    rw [navigateToView_of_ne n v hne]
    exact ⟨rfl, rfl, rfl⟩
  · exact navigateToView_self n v

/-- C1 witness: the amended theorem applied to the initial session and the
table-invalid target `Log`. -/
theorem navigateToView_ignores_table_witness :
    (navigateToView newNavigationState .LogView).1.currentView = .LogView ∧
    navigateToView newNavigationState .ContextView =
      (newNavigationState, false) :=
  ⟨((navigateToView_ignores_table newNavigationState .LogView).1
      (by decide) (by decide)).1,
    (navigateToView_ignores_table newNavigationState .ContextView).2 (by decide)⟩

/-- C6: every legal transition request with `to ≠ current` sets
`previous` to the old `current`, `current` to `to`, appends `to` to the
history, resets focus to the canonical entry panel of `to` and forces
`searchActive` off; a request with `to = current` is a no-op that is not
recorded in the history. -/
theorem legal_transition_updates (n : NavigationState) (v : ViewType) :
    (IsValidTransition n.currentView v = true → v ≠ n.currentView →
      (navigateToView n v).1.previousView = n.currentView ∧
      (navigateToView n v).1.currentView = v ∧
      (navigateToView n v).1.navigationHistory = n.navigationHistory ++ [v] ∧
      (navigateToView n v).1.focusedPanel = entryFocus v ∧
      (navigateToView n v).1.searchMode = false) ∧
    (v = n.currentView → navigateToView n v = (n, false)) := by
  constructor
  · intro _ hne
    rw [navigateToView_of_ne n v hne]
    exact ⟨rfl, rfl, rfl, rfl, rfl⟩
  · exact navigateToView_self n v

/-- C6 witness: the legal transition Context → Namespace from the initial
session, and the no-op request Context → Context. -/
theorem legal_transition_updates_witness :
    (navigateToView newNavigationState .NamespaceView).1.currentView =
      .NamespaceView ∧
    (navigateToView newNavigationState .NamespaceView).1.searchMode = false ∧
    navigateToView newNavigationState .ContextView =
      (newNavigationState, false) :=
  ⟨((legal_transition_updates newNavigationState .NamespaceView).1
      (by decide) (by decide)).2.1,
    ((legal_transition_updates newNavigationState .NamespaceView).1
      (by decide) (by decide)).2.2.2.2,
    (legal_transition_updates newNavigationState .ContextView).2 (by decide)⟩

/-- C8: `NavigateBack` follows the fixed back-map Log→Workload(Pod),
Workload→Namespace, Namespace→Context via `NavigateToView`, is a no-op from
Context, and from the Log screen it always yields current = Pod, focused =
Pod and searchActive = false regardless of the prior `searchActive`. -/
theorem navigateBack_fixed_map (n : NavigationState) :
    (n.currentView = .LogView → navigateBack n = navigateToView n .PodView) ∧
    (n.currentView = .PodView →
      navigateBack n = navigateToView n .NamespaceView) ∧
    (n.currentView = .NamespaceView →
      navigateBack n = navigateToView n .ContextView) ∧
    (n.currentView = .ContextView → navigateBack n = (n, false)) ∧
    (n.currentView = .LogView →
      (navigateBack n).1.currentView = .PodView ∧
      (navigateBack n).1.focusedPanel = .FocusPod ∧
      (navigateBack n).1.searchMode = false) := by
  refine ⟨?_, ?_, ?_, ?_, ?_⟩ <;> intro hc <;>
    unfold navigateBack <;> rw [hc]
  case _ =>
    have h := navigateToView_of_ne n .PodView (by rw [hc]; decide)
    rw [h]
    exact ⟨rfl, rfl, rfl⟩

/-- C8 witness: `NavigateBack` from a Log-screen session that is in search
mode lands on the Pod screen with Pod focus and search mode off. -/
theorem navigateBack_fixed_map_witness :
    (navigateBack
        { currentView := .LogView
          focusedPanel := .FocusSearch
          previousView := .PodView
          helpVisible := false
          searchMode := true
          navigationHistory := [.ContextView] }).1.currentView = .PodView ∧
    (navigateBack
        { currentView := .LogView
          focusedPanel := .FocusSearch
          previousView := .PodView
          helpVisible := false
          searchMode := true
          navigationHistory := [.ContextView] }).1.searchMode = false :=
  ⟨((navigateBack_fixed_map _).2.2.2.2 rfl).1,
    ((navigateBack_fixed_map _).2.2.2.2 rfl).2.2⟩

/-- C10: `NextPanel` immediately followed by `PrevPanel` (and vice versa)
restores the whole session — in particular the focused panel — and neither
operation changes the current screen or the search-mode flag, on every
screen and for every focus value. -/
theorem panel_cycle_roundtrip (n : NavigationState) :
    (prevPanel (nextPanel n).1).1 = n ∧
    (nextPanel (prevPanel n).1).1 = n ∧
    (nextPanel n).1.currentView = n.currentView ∧
    (nextPanel n).1.searchMode = n.searchMode ∧
    (prevPanel n).1.currentView = n.currentView ∧
    (prevPanel n).1.searchMode = n.searchMode := by
  obtain ⟨cv, fp, pv, hv, sm, hist⟩ := n
  cases cv <;> cases fp <;>
    exact ⟨rfl, rfl, rfl, rfl, rfl, rfl⟩

/-! ## Claim theorems: event router in search mode -/

/-- C3, counterexample: with search mode active on the Namespace screen, the
screen-jump key `p` (`SelectPod`) is consumed by the Navigation State
Machine — it changes the current screen and kills search mode — instead of
being forwarded to the search-input sub-component, refuting "no normal
navigation action is consumed by the Navigation State Machine while search
mode is active". -/
theorem router_search_preemption_counterexample :
    (handleKeyEvent
        { currentView := .NamespaceView
          focusedPanel := .FocusSearch
          previousView := .ContextView
          helpVisible := false
          searchMode := true
          navigationHistory := [.ContextView, .NamespaceView] }
        .selectPod).2 = .consumedNav ∧
    (handleKeyEvent
        { currentView := .NamespaceView
          focusedPanel := .FocusSearch
          previousView := .ContextView
          helpVisible := false
          searchMode := true
          navigationHistory := [.ContextView, .NamespaceView] }
        .selectPod).1.currentView = .PodView ∧
    (handleKeyEvent
        { currentView := .NamespaceView
          focusedPanel := .FocusSearch
          previousView := .ContextView
          helpVisible := false
          searchMode := true
          navigationHistory := [.ContextView, .NamespaceView] }
        .selectPod).1.searchMode = false := by
  decide

/-- C3, amended: while `searchActive` the router checks global keys first,
then hands every key to `HandleNavigation` — a navigation action that
returns a command (panel-cycle on a multi-panel screen, back off the
Context screen, search, help, or a screen-jump to a different screen) is
consumed by the Navigation State Machine even in search mode.  Only keys
that fall through reach the search tier, where confirm (`enter`), cancel
(`back`) and clear are intercepted and everything else is forwarded to the
search-input sub-component. -/
theorem router_search_mode_routing (n : NavigationState) (k : KeyAction)
    (hsm : n.searchMode = true) :
    handleKeyEvent n k =
      (if k = .quit ∨ k = .help then (n, .consumedGlobal)
        else if (handleNavigation n k).2 = true then
          ((handleNavigation n k).1, .consumedNav)
        else if k = .back ∨ k = .enter ∨ k = .clearSearch then
          ((exitSearchMode n).1, .consumedSearch)
        else (n, .forwarded)) := by
  by_cases hg : k = .quit ∨ k = .help
  · rw [if_pos hg]
    have hgb : handleGlobalKeys k = true := by
      rcases hg with hg | hg <;> simp [handleGlobalKeys, hg]
    unfold handleKeyEvent
    rw [if_pos hgb]
  · rw [if_neg hg]
    have hgb : ¬ handleGlobalKeys k = true := by
      simp only [handleGlobalKeys, Bool.or_eq_true, decide_eq_true_eq]
      exact hg
    unfold handleKeyEvent
    rw [if_neg hgb]
    cases hnav : (handleNavigation n k).2
    · rw [if_neg (by simp [hnav])]
      have hst := handleNavigation_no_cmd n k hnav
      simp only [hst, hsm, if_pos]
      cases k <;> simp_all [handleSearchKeys]
    · rw [if_pos rfl]
      simp [hnav]

/-- C3 witness: in a Log-screen search session, an ordinary character key is
forwarded to the search-input sub-component. -/
theorem router_search_mode_routing_witness :
    handleKeyEvent
        { currentView := .ContextView
          focusedPanel := .FocusSearch
          previousView := .ContextView
          helpVisible := false
          searchMode := true
          navigationHistory := [.ContextView] }
        (.char 'x') =
      ({ currentView := .ContextView
         focusedPanel := .FocusSearch
         previousView := .ContextView
         helpVisible := false
         searchMode := true
         navigationHistory := [.ContextView] }, .forwarded) :=
  (router_search_mode_routing _ (.char 'x') rfl).trans (by decide)

/-! ## Helper lemmas about the log buffer ring -/

/-- The non-empty lines of one chunk, in order (what the `appendLogData`
loop actually pushes). -/
def chunkLines (data : String) : List String :=
  (splitLines data).filter (fun s => !(s == ""))

/-- All non-empty lines of a chunk sequence, oldest to newest. -/
def allChunkLines (chunks : List String) : List String :=
  (chunks.map chunkLines).flatten

/-- Folding the trimming push over a buffer that starts within capacity
yields exactly the `maxLogLines` most recent lines (all of them while under
capacity). -/
theorem foldl_pushLine_drop (l : List String) :
    ∀ buf : List String, buf.length ≤ maxLogLines →
      l.foldl pushLine buf = (buf ++ l).drop ((buf ++ l).length - maxLogLines) := by
  induction l with
  | nil =>
    intro buf h
    rw [List.foldl_nil, List.append_nil, Nat.sub_eq_zero_of_le h, List.drop_zero]
  | cons a t ih =>
    intro buf h
    rw [List.foldl_cons]
    have hcons : buf ++ a :: t = (buf ++ [a]) ++ t := by
      simp
    have hA : (buf ++ [a]).length = buf.length + 1 := by
      simp
    by_cases hb : maxLogLines < (buf ++ [a]).length
    · have hlen : buf.length = maxLogLines := by omega
      have hpush : pushLine buf a = (buf ++ [a]).drop 1 := by
        have hd : (buf ++ [a]).length - maxLogLines = 1 := by omega
        unfold pushLine
        rw [if_pos hb, hd]
      have h1 : ((buf ++ [a]).drop 1).length ≤ maxLogLines := by
        rw [List.length_drop]
        omega
      rw [hpush, ih _ h1]
      have h2 : ((buf ++ [a]) ++ t).drop 1 = (buf ++ [a]).drop 1 ++ t := by
        rw [List.drop_append_eq_append_drop]
        have hz : 1 - (buf ++ [a]).length = 0 := by omega
        rw [hz, List.drop_zero]
      rw [← h2, List.drop_drop, hcons]
      have hamount :
          1 + ((((buf ++ [a]) ++ t).drop 1).length - maxLogLines) =
            ((buf ++ [a]) ++ t).length - maxLogLines := by
        rw [List.length_drop, List.length_append, hA]
        omega
      rw [hamount]
    · have hpush : pushLine buf a = buf ++ [a] := by
        unfold pushLine
        rw [if_neg hb]
      rw [hpush, ih _ (by omega), hcons]

/-- The skip-empty loop body is the plain push over the pre-filtered
lines. -/
theorem foldl_pushLineSkip (l : List String) :
    ∀ buf, l.foldl pushLineSkip buf =
      (l.filter (fun s => !(s == ""))).foldl pushLine buf := by
  induction l with
  | nil => intro buf; rfl
  | cons a t ih =>
    intro buf
    rw [List.foldl_cons, List.filter_cons]
    by_cases ha : a = ""
    · simp only [ha, pushLineSkip, if_pos rfl]
      rw [ih]
      simp
    · have : pushLineSkip buf a = pushLine buf a := by
        unfold pushLineSkip
        rw [if_neg ha]
      rw [this, ih]
      simp [ha]

/-- Embeds `updateFilteredLines` never changes the line buffer itself. -/
theorem updateFilteredLines_logLines (lv : LogViewer) :
    (lv.updateFilteredLines).logLines = lv.logLines := by
  unfold LogViewer.updateFilteredLines
  split <;> rfl

/-- The buffer produced by one `appendLogData` call. -/
theorem appendLogData_logLines (lv : LogViewer) (d : String) :
    (lv.appendLogData d).logLines =
      (splitLines d).foldl pushLineSkip lv.logLines := by
  unfold LogViewer.appendLogData
  rw [updateFilteredLines_logLines]

/-- The buffer after a whole chunk sequence is the plain push fold over all
the chunks' non-empty lines. -/
theorem foldl_appendLogData_logLines (chunks : List String) :
    ∀ lv : LogViewer, (chunks.foldl LogViewer.appendLogData lv).logLines =
      (allChunkLines chunks).foldl pushLine lv.logLines := by
  induction chunks with
  | nil => intro lv; rfl
  | cons c t ih =>
    intro lv
    rw [List.foldl_cons, ih, appendLogData_logLines, foldl_pushLineSkip]
    simp only [allChunkLines, List.map_cons, List.flatten_cons, List.foldl_append]
    rfl

/-- Mapping each element to its singleton and flattening is the identity. -/
theorem join_map_singleton {α : Type} (f : α → List α) :
    ∀ l : List α, (∀ c ∈ l, f c = [c]) → (l.map f).flatten = l := by
  intro l
  induction l with
  | nil => intro _; rfl
  | cons a t ih =>
    intro hl
    rw [List.map_cons, List.flatten_cons, hl a (List.mem_cons_self a t),
      ih (fun c hc => hl c (List.mem_cons_of_mem a hc))]
    rfl

/-- Embeds `components.NewLogViewer` (the fields kept in the model, with their
constructor values). -/
def newLogViewer : LogViewer := {}

/-! ## Claim theorem: log buffer FIFO ring (C4) -/

/-- C4: after any sequence of appends starting from a fresh viewer the
buffer is exactly the most recent `maxLogLines` (10,000) of all appended
non-empty lines in arrival order — in particular its length never exceeds
10,000 — and after 10,005 single-line chunks the length is exactly 10,000
with the 6th chunk as the first retained line. -/
theorem buffer_ring_bound (chunks : List String) :
    ((chunks.foldl LogViewer.appendLogData newLogViewer).logLines =
      (allChunkLines chunks).drop
        ((allChunkLines chunks).length - maxLogLines)) ∧
    (chunks.foldl LogViewer.appendLogData newLogViewer).logLines.length ≤
      maxLogLines ∧
    (∀ cs : List String, cs.length = 10005 →
      (∀ c ∈ cs, chunkLines c = [c]) →
      (cs.foldl LogViewer.appendLogData newLogViewer).logLines.length =
        maxLogLines ∧
      (cs.foldl LogViewer.appendLogData newLogViewer).logLines.head? =
        cs[5]?) := by
  have hmain : ∀ ch : List String,
      (ch.foldl LogViewer.appendLogData newLogViewer).logLines =
        (allChunkLines ch).drop ((allChunkLines ch).length - maxLogLines) := by
    intro ch
    rw [foldl_appendLogData_logLines]
    have hempty : newLogViewer.logLines = [] := rfl
    rw [hempty]
    have h := foldl_pushLine_drop (allChunkLines ch) []
      (by simp only [List.length_nil]; omega)
    simpa using h
  refine ⟨hmain chunks, ?_, ?_⟩
  · rw [hmain chunks, List.length_drop]
    omega
  · intro cs hlen hsingle
    have hall : allChunkLines cs = cs :=
      join_map_singleton chunkLines cs hsingle
    have hdrop : (cs.foldl LogViewer.appendLogData newLogViewer).logLines =
        cs.drop 5 := by
      rw [hmain cs, hall, hlen]
      norm_num [maxLogLines]
    constructor
    · rw [hdrop, List.length_drop, hlen]
      rfl
    · rw [hdrop]
      exact List.head?_drop cs 5

/-- C4 witness: 10,005 copies of the single-line chunk `"x"`. -/
theorem buffer_ring_bound_witness :
    ((List.replicate 10005 "x").foldl LogViewer.appendLogData
        newLogViewer).logLines.length = maxLogLines ∧
    ((List.replicate 10005 "x").foldl LogViewer.appendLogData
        newLogViewer).logLines.head? = (List.replicate 10005 "x")[5]? :=
  (buffer_ring_bound (List.replicate 10005 "x")).2.2
    (List.replicate 10005 "x") (by rw [List.length_replicate])
    (fun c hc => by rw [List.eq_of_mem_replicate hc]; decide)

/-! ## Helper lemmas about the search scan (C2) -/

/-- Case-insensitive substring match of `query` against one line — the
predicate computed by the `updateFilteredLines` scan. -/
def lineMatches (query line : String) : Bool :=
  strContains (strToLower line) (strToLower query)

/-- The scan fold appends every matching line to the display list (no cap)
and records matching indices only up to `maxSearchResults`. -/
theorem foldl_searchStep (q : String) :
    ∀ (l : List (Nat × String)) (fl : List String) (sr : List Nat),
      sr.length ≤ maxSearchResults →
      l.foldl (searchStep q) (fl, sr) =
        (fl ++ (l.filter (fun il => strContains (strToLower il.2) q)).map
            Prod.snd,
          (sr ++ (l.filter (fun il => strContains (strToLower il.2) q)).map
            Prod.fst).take maxSearchResults) := by
  intro l
  induction l with
  | nil =>
    intro fl sr h
    simp [List.take_of_length_le h]
  | cons a t ih =>
    intro fl sr h
    rw [List.foldl_cons, List.filter_cons]
    by_cases hp : strContains (strToLower a.2) q = true
    · have hstep : searchStep q (fl, sr) a =
          (fl ++ [a.2],
            if sr.length < maxSearchResults then sr ++ [a.1] else sr) := by
        unfold searchStep
        rw [if_pos hp]
      rw [hstep]
      by_cases hlen : sr.length < maxSearchResults
      · rw [if_pos hlen]
        have hlen1 : (sr ++ [a.1]).length ≤ maxSearchResults := by
          rw [List.length_append]
          simp only [List.length_cons, List.length_nil]
          omega
        rw [ih (fl ++ [a.2]) (sr ++ [a.1]) hlen1]
        simp only [hp, if_true, List.map_cons, List.append_assoc,
          List.singleton_append]
      · rw [if_neg hlen]
        have hsr : sr.length = maxSearchResults := by omega
        rw [ih (fl ++ [a.2]) sr h]
        have hTake : ∀ x : List Nat,
            (sr ++ x).take maxSearchResults = sr := by
          intro x
          rw [List.take_append_eq_append_take,
            List.take_of_length_le (le_of_eq hsr), hsr, Nat.sub_self,
            List.take_zero, List.append_nil]
        rw [hTake, hTake]
        simp only [hp, if_true, List.map_cons, List.append_assoc,
          List.singleton_append]
    · have hstep : searchStep q (fl, sr) a = (fl, sr) := by
        unfold searchStep
        rw [if_neg hp]
      rw [hstep, ih fl sr h]
      simp only [hp, if_false, Bool.false_eq_true]


/-- Projecting the matching lines out of the enumerated scan equals a plain
filter of the buffer. -/
theorem enumFrom_filter_map_snd {α : Type} (p : α → Bool) :
    ∀ (l : List α) (n : Nat),
      ((l.enumFrom n).filter (fun il => p il.2)).map Prod.snd = l.filter p := by
  intro l
  induction l with
  | nil => intro n; rfl
  | cons a t ih =>
    intro n
    rw [List.enumFrom_cons, List.filter_cons, List.filter_cons]
    by_cases hp : p a = true
    · simp only [hp, if_true, List.map_cons, ih]
    · simp only [Bool.not_eq_true] at hp
      simp only [hp, Bool.false_eq_true, if_false, ih]

/-- Embeds `updateFilteredLines` on a non-empty query, in closed form. -/
theorem updateFilteredLines_spec (lv : LogViewer) (hq : lv.searchQuery ≠ "") :
    lv.updateFilteredLines =
      { lv with
          filteredLines :=
            lv.logLines.filter (fun line => lineMatches lv.searchQuery line)
          searchResults :=
            ((lv.logLines.enum.filter
                (fun il => lineMatches lv.searchQuery il.2)).map
              Prod.fst).take maxSearchResults } := by
  unfold LogViewer.updateFilteredLines
  rw [if_neg hq]
  have h := foldl_searchStep (strToLower lv.searchQuery) lv.logLines.enum
    [] [] (by simp only [List.length_nil]; omega)
  simp only [List.nil_append] at h
  rw [h]
  have hsnd :
      (lv.logLines.enum.filter
          (fun il => strContains (strToLower il.2)
            (strToLower lv.searchQuery))).map Prod.snd =
        lv.logLines.filter (fun line => lineMatches lv.searchQuery line) := by
    unfold lineMatches
    simp only [List.enum]
    exact enumFrom_filter_map_snd
      (fun line => strContains (strToLower line) (strToLower lv.searchQuery))
      lv.logLines 0
  rw [hsnd]
  rfl

/-! ## Claim theorems: search recomputation (C2) -/

/-- C2, counterexample: a buffer of 1,001 lines that all match the query
produces a filtered display list of length 1,001 — beyond the
`maxSearchResults` (1,000) cap — refuting "the filtered display list is
built only up to that same 1,000-entry cap". -/
theorem search_filter_uncapped_counterexample :
    (LogViewer.updateFilteredLines
        { logLines := List.replicate 1001 "a"
          searchQuery := "a" }).filteredLines.length = 1001 ∧
    maxSearchResults = 1000 := by
  constructor
  · rw [updateFilteredLines_spec _ (by decide)]
    have hall : (List.replicate 1001 "a").filter
        (fun line => lineMatches "a" line) = List.replicate 1001 "a" := by
      refine List.filter_eq_self.mpr ?_
      intro a ha
      rw [List.eq_of_mem_replicate ha]
      decide
    show ((List.replicate 1001 "a").filter
      (fun line => lineMatches "a" line)).length = 1001
    rw [hall, List.length_replicate]
  · rfl

/-- C2, amended: for every buffer and query, the recomputation matches the
query case-insensitively as a substring against every buffered line in
oldest-to-newest order; it stops recording match indices once
`maxSearchResults` (1,000) matches are recorded, but the filtered display
list is NOT capped — it receives every matching line; for the empty query
the filtered list equals the full buffer and the match list is empty. -/
theorem search_recompute_spec (lv : LogViewer) :
    (lv.searchQuery = "" →
      (lv.updateFilteredLines).filteredLines = lv.logLines ∧
      (lv.updateFilteredLines).searchResults = []) ∧
    (lv.searchQuery ≠ "" →
      (lv.updateFilteredLines).filteredLines =
        lv.logLines.filter (fun line => lineMatches lv.searchQuery line) ∧
      (lv.updateFilteredLines).searchResults =
        ((lv.logLines.enum.filter
            (fun il => lineMatches lv.searchQuery il.2)).map
          Prod.fst).take maxSearchResults ∧
      (lv.updateFilteredLines).searchResults.length ≤ maxSearchResults) := by
  constructor
  · intro hq
    unfold LogViewer.updateFilteredLines
    rw [if_pos hq]
    exact ⟨rfl, rfl⟩
  · intro hq
    rw [updateFilteredLines_spec lv hq]
    refine ⟨rfl, rfl, ?_⟩
    show (((lv.logLines.enum.filter
        (fun il => lineMatches lv.searchQuery il.2)).map
      Prod.fst).take maxSearchResults).length ≤ maxSearchResults
    rw [List.length_take]
    omega

/-- C2 witness: the spec scenario — buffer `["INFO x","ERROR y","INFO z"]`
with query `"error"` yields the single match index 1; an empty query passes
the buffer through. -/
theorem search_recompute_spec_witness :
    (LogViewer.updateFilteredLines
        { logLines := ["INFO x", "ERROR y", "INFO z"]
          searchQuery := "error" }).searchResults = [1] ∧
    (LogViewer.updateFilteredLines
        { logLines := ["a"], searchQuery := "" }).filteredLines = ["a"] :=
  ⟨(((search_recompute_spec _).2 (by decide)).2.1).trans (by decide),
    ((search_recompute_spec _).1 rfl).1⟩


/-! ## Claim theorems: stream read outcomes (C5) -/

/-- Embeds `appendLogData` never changes the follow flag. -/
theorem appendLogData_followMode (lv : LogViewer) (d : String) :
    (lv.appendLogData d).followMode = lv.followMode := by
  unfold LogViewer.appendLogData LogViewer.updateFilteredLines
  split <;> rfl

/-- C5: every completed stream read is handled as exactly one of three
outcomes — an error is surfaced via `setError` (buffer untouched) and the
read is re-issued with no other state change, end-of-stream issues no
further read and changes nothing, and otherwise the chunk is appended, the
viewport auto-scrolls to the bottom when follow mode is on, and a new read
is issued. -/
theorem stream_read_outcomes (lv : LogViewer) (msg : LogChunkMsg) :
    (∀ e, msg.error = some e →
      lv.handleLogChunk msg = (lv.setError e, true) ∧
      (lv.setError e).logLines = lv.logLines ∧
      (lv.setError e).lastError = some e ∧
      (lv.setError e).showError = true) ∧
    (msg.error = none → msg.eof = true → lv.handleLogChunk msg = (lv, false)) ∧
    (msg.error = none → msg.eof = false →
      (lv.handleLogChunk msg).2 = true ∧
      (lv.handleLogChunk msg).1.logLines =
        (splitLines msg.data).foldl pushLineSkip lv.logLines ∧
      (lv.followMode = true →
        (lv.handleLogChunk msg).1.viewport.atBottom = true)) := by
  refine ⟨?_, ?_, ?_⟩
  · intro e he
    unfold LogViewer.handleLogChunk
    rw [he]
    exact ⟨rfl, rfl, rfl, rfl⟩
  · intro hne heof
    unfold LogViewer.handleLogChunk
    rw [hne, heof]
    rfl
  · intro hne heof
    have hstep : lv.handleLogChunk msg =
        ((if (lv.appendLogData msg.data).followMode then
            (lv.appendLogData msg.data).scrollToBottom
          else lv.appendLogData msg.data), true) := by
      unfold LogViewer.handleLogChunk
      rw [hne, heof]
      rfl
    refine ⟨by rw [hstep], ?_, ?_⟩
    · rw [hstep]
      by_cases hf : (lv.appendLogData msg.data).followMode
      · rw [if_pos hf]
        show ((lv.appendLogData msg.data).scrollToBottom).logLines =
          (splitLines msg.data).foldl pushLineSkip lv.logLines
        have hsc : ((lv.appendLogData msg.data).scrollToBottom).logLines =
            (lv.appendLogData msg.data).logLines := rfl
        rw [hsc]
        exact appendLogData_logLines lv msg.data
      · rw [if_neg hf]
        exact appendLogData_logLines lv msg.data
    · intro hfollow
      rw [hstep]
      have hf1 : (lv.appendLogData msg.data).followMode = true := by
        rw [appendLogData_followMode]
        exact hfollow
      rw [if_pos hf1]
      rfl

/-- C5 witness: a read error is surfaced and retried, end-of-stream issues
no further read, and a data chunk re-issues the read. -/
theorem stream_read_outcomes_witness :
    newLogViewer.handleLogChunk { error := some "read timeout" } =
      (newLogViewer.setError "read timeout", true) ∧
    newLogViewer.handleLogChunk { eof := true } = (newLogViewer, false) ∧
    (newLogViewer.handleLogChunk { data := "A" }).2 = true :=
  ⟨((stream_read_outcomes newLogViewer _).1 "read timeout" rfl).1,
    (stream_read_outcomes newLogViewer _).2.1 rfl rfl,
    ((stream_read_outcomes newLogViewer _).2.2 rfl rfl).1⟩


/-! ## Helper lemmas about match navigation (C7) -/

/-- Advancing the cursor circularly and then retreating restores it. -/
theorem next_prev_cancel (c n : Nat) (hpos : 0 < n) (hc : c < n) :
    ((c + 1) % n + n - 1) % n = c := by
  rcases Nat.lt_or_ge (c + 1) n with h1 | h1
  · rw [Nat.mod_eq_of_lt h1]
    have he : c + 1 + n - 1 = c + n := by omega
    rw [he, Nat.add_mod_right, Nat.mod_eq_of_lt hc]
  · have hn : c + 1 = n := by omega
    rw [hn, Nat.mod_self]
    have he : 0 + n - 1 = c := by omega
    rw [he, Nat.mod_eq_of_lt hc]

/-- Retreating the cursor circularly and then advancing restores it. -/
theorem prev_next_cancel (c n : Nat) (hpos : 0 < n) (hc : c < n) :
    ((c + n - 1) % n + 1) % n = c := by
  rw [Nat.mod_add_mod, Nat.sub_add_cancel (by omega), Nat.add_mod_right,
    Nat.mod_eq_of_lt hc]

/-- Embeds `jumpToSearchResult` on an in-range index, in closed form: the viewport
is repositioned to `max 0 (matchLine - viewportHeight/2)`. -/
theorem jumpToSearchResult_eq (lv : LogViewer) (i : Nat)
    (h : i < lv.searchResults.length) :
    lv.jumpToSearchResult i =
      { lv with
          viewport := lv.viewport.setYOffset
            (max 0 ((lv.searchResults.getD i 0 : Int) -
              lv.viewport.height.tdiv 2)) } := by
  unfold LogViewer.jumpToSearchResult
  rw [dif_pos h]
  dsimp only
  have hg : lv.searchResults.get ⟨i, h⟩ = lv.searchResults.getD i 0 := by
    rw [List.getD_eq_getElem lv.searchResults 0 h]
    rfl
  have hmax : ∀ t : Int, (if t < 0 then (0 : Int) else t) = max 0 t := by
    intro t
    split <;> omega
  rw [hg, hmax]

/-- Embeds `jumpToSearchResult` never changes the cursor. -/
theorem jumpToSearchResult_currentResult (lv : LogViewer) (i : Nat) :
    (lv.jumpToSearchResult i).currentResult = lv.currentResult := by
  unfold LogViewer.jumpToSearchResult
  split <;> rfl

/-- Embeds `jumpToSearchResult` never changes the match list. -/
theorem jumpToSearchResult_searchResults (lv : LogViewer) (i : Nat) :
    (lv.jumpToSearchResult i).searchResults = lv.searchResults := by
  unfold LogViewer.jumpToSearchResult
  split <;> rfl

/-- The viewport offset requested by an in-range jump. -/
theorem jumpToSearchResult_yOffset (lv : LogViewer) (i : Nat)
    (h : i < lv.searchResults.length) :
    (lv.jumpToSearchResult i).viewport.yOffset =
      max 0 ((lv.searchResults.getD i 0 : Int) -
        lv.viewport.height.tdiv 2) := by
  rw [jumpToSearchResult_eq lv i h]
  rfl

/-- Embeds `nextSearchResult` advances the cursor circularly. -/
theorem nextSearchResult_currentResult (lv : LogViewer)
    (h : lv.searchResults.length ≠ 0) :
    (lv.nextSearchResult).currentResult =
      (lv.currentResult + 1) % lv.searchResults.length := by
  unfold LogViewer.nextSearchResult
  rw [if_neg h]
  dsimp only
  exact jumpToSearchResult_currentResult _ _

/-- Embeds `nextSearchResult` never changes the match list. -/
theorem nextSearchResult_searchResults (lv : LogViewer) :
    (lv.nextSearchResult).searchResults = lv.searchResults := by
  unfold LogViewer.nextSearchResult
  split
  · rfl
  · exact jumpToSearchResult_searchResults _ _

/-- Embeds `nextSearchResult` centers the new match line. -/
theorem nextSearchResult_yOffset (lv : LogViewer)
    (h : lv.searchResults.length ≠ 0) :
    (lv.nextSearchResult).viewport.yOffset =
      max 0 ((lv.searchResults.getD
          ((lv.currentResult + 1) % lv.searchResults.length) 0 : Int) -
        lv.viewport.height.tdiv 2) := by
  unfold LogViewer.nextSearchResult
  rw [if_neg h]
  dsimp only
  exact jumpToSearchResult_yOffset _ _ (Nat.mod_lt _ (Nat.pos_of_ne_zero h))

/-- Embeds `prevSearchResult` retreats the cursor circularly. -/
theorem prevSearchResult_currentResult (lv : LogViewer)
    (h : lv.searchResults.length ≠ 0) :
    (lv.prevSearchResult).currentResult =
      (lv.currentResult + lv.searchResults.length - 1) %
        lv.searchResults.length := by
  unfold LogViewer.prevSearchResult
  rw [if_neg h]
  dsimp only
  exact jumpToSearchResult_currentResult _ _

/-- Embeds `prevSearchResult` never changes the match list. -/
theorem prevSearchResult_searchResults (lv : LogViewer) :
    (lv.prevSearchResult).searchResults = lv.searchResults := by
  unfold LogViewer.prevSearchResult
  split
  · rfl
  · exact jumpToSearchResult_searchResults _ _

/-- Embeds `prevSearchResult` centers the new match line. -/
theorem prevSearchResult_yOffset (lv : LogViewer)
    (h : lv.searchResults.length ≠ 0) :
    (lv.prevSearchResult).viewport.yOffset =
      max 0 ((lv.searchResults.getD
          ((lv.currentResult + lv.searchResults.length - 1) %
            lv.searchResults.length) 0 : Int) -
        lv.viewport.height.tdiv 2) := by
  unfold LogViewer.prevSearchResult
  rw [if_neg h]
  dsimp only
  exact jumpToSearchResult_yOffset _ _ (Nat.mod_lt _ (Nat.pos_of_ne_zero h))

/-! ## Claim theorems: match navigation (C7) -/

/-- C7: on a non-empty match list with the cursor in range, `NextMatch`
followed by `PrevMatch` (and vice versa) restores the cursor; both
operations wrap circularly and reposition the viewport to
`max 0 (matchLine - viewportHeight/2)`; both are no-ops on an empty match
list. -/
theorem match_navigation_roundtrip :
    (∀ lv : LogViewer, lv.searchResults ≠ [] →
      lv.currentResult < lv.searchResults.length →
      ((lv.nextSearchResult).prevSearchResult.currentResult =
        lv.currentResult ∧
      (lv.prevSearchResult).nextSearchResult.currentResult =
        lv.currentResult ∧
      (lv.nextSearchResult).viewport.yOffset =
        max 0 ((lv.searchResults.getD
            ((lv.currentResult + 1) % lv.searchResults.length) 0 : Int) -
          lv.viewport.height.tdiv 2) ∧
      (lv.prevSearchResult).viewport.yOffset =
        max 0 ((lv.searchResults.getD
            ((lv.currentResult + lv.searchResults.length - 1) %
              lv.searchResults.length) 0 : Int) -
          lv.viewport.height.tdiv 2))) ∧
    (∀ lv : LogViewer, lv.searchResults = [] →
      lv.nextSearchResult = lv ∧ lv.prevSearchResult = lv) := by
  constructor
  · intro lv hne hc
    have hn : lv.searchResults.length ≠ 0 :=
      fun h0 => hne (List.eq_nil_of_length_eq_zero h0)
    have hpos : 0 < lv.searchResults.length := Nat.pos_of_ne_zero hn
    have hnN : (lv.nextSearchResult).searchResults.length ≠ 0 := by
      rw [nextSearchResult_searchResults]
      exact hn
    have hnP : (lv.prevSearchResult).searchResults.length ≠ 0 := by
      rw [prevSearchResult_searchResults]
      exact hn
    refine ⟨?_, ?_, ?_, ?_⟩
    · rw [prevSearchResult_currentResult _ hnN,
        nextSearchResult_currentResult lv hn,
        nextSearchResult_searchResults]
      exact next_prev_cancel _ _ hpos hc
    · rw [nextSearchResult_currentResult _ hnP,
        prevSearchResult_currentResult lv hn,
        prevSearchResult_searchResults]
      exact prev_next_cancel _ _ hpos hc
    · exact nextSearchResult_yOffset lv hn
    · exact prevSearchResult_yOffset lv hn
  · intro lv he
    have h0 : lv.searchResults.length = 0 := by
      rw [he]
      rfl
    constructor
    · unfold LogViewer.nextSearchResult
      rw [if_pos h0]
    · unfold LogViewer.prevSearchResult
      rw [if_pos h0]

/-- C7 witness: match list `[3, 10]`, cursor 0, viewport height 4 — next
then prev restores the cursor, and next centers match line 10 at offset
`max 0 (10 - 4/2) = 8`. -/
theorem match_navigation_roundtrip_witness :
    (LogViewer.prevSearchResult (LogViewer.nextSearchResult
        { searchResults := [3, 10], currentResult := 0,
          viewport := { height := 4, yOffset := 0, atBottom := false } :
          LogViewer })).currentResult = 0 ∧
    (LogViewer.nextSearchResult
        { searchResults := [3, 10], currentResult := 0,
          viewport := { height := 4, yOffset := 0, atBottom := false } :
          LogViewer }).viewport.yOffset = 8 := by
  have h := match_navigation_roundtrip.1
    { searchResults := [3, 10], currentResult := 0,
      viewport := { height := 4, yOffset := 0, atBottom := false } :
      LogViewer } (by decide) (by decide)
  exact ⟨h.1, h.2.2.1.trans (by decide)⟩


/-! ## Helper lemmas about the search history (C9) -/

/-- Embeds `updateSearchResults` never touches the search history. -/
theorem updateSearchResults_searchHistory (lv : LogViewer) :
    (lv.updateSearchResults).searchHistory = lv.searchHistory := by
  have h1 : (lv.updateFilteredLines).searchHistory = lv.searchHistory := by
    unfold LogViewer.updateFilteredLines
    split <;> rfl
  unfold LogViewer.updateSearchResults
  dsimp only
  split
  · unfold LogViewer.jumpToSearchResult
    split
    · exact h1
    · exact h1
  · exact h1

/-- The history after `addToSearchHistory`, in closed form: skip a present
query, otherwise append and evict the oldest entry once over
`maxSearchHistory`. -/
theorem addToSearchHistory_eq (lv : LogViewer) (q : String) :
    (lv.addToSearchHistory q).searchHistory =
      if q ∈ lv.searchHistory then lv.searchHistory
      else if maxSearchHistory < (lv.searchHistory ++ [q]).length then
        (lv.searchHistory ++ [q]).drop 1
      else lv.searchHistory ++ [q] := by
  unfold LogViewer.addToSearchHistory
  by_cases hmem : q ∈ lv.searchHistory
  · rw [if_pos hmem, if_pos hmem]
  · rw [if_neg hmem, if_neg hmem]

/-- The history after a search confirm, in closed form. -/
theorem executeSearch_searchHistory (lv : LogViewer) :
    (lv.executeSearch).searchHistory =
      if lv.searchInputValue ≠ "" then
        (LogViewer.addToSearchHistory
          { lv with searchQuery := lv.searchInputValue }
          lv.searchInputValue).searchHistory
      else lv.searchHistory := by
  unfold LogViewer.executeSearch LogViewer.exitSearchMode
  dsimp only
  by_cases hq : lv.searchInputValue ≠ ""
  · rw [if_pos hq, if_pos hq]
    exact updateSearchResults_searchHistory _
  · rw [if_neg hq, if_neg hq]

/-! ## Claim theorems: search history (C9) -/

/-- C9: on search confirm the query is appended exactly when it is
non-empty and not already present, evicting the oldest entry once the
length exceeds `maxSearchHistory` (50); consequently a history of at most
50 distinct entries stays within 50 distinct entries. -/
theorem search_history_dedup_fifo (lv : LogViewer) :
    ((lv.executeSearch).searchHistory =
      (if lv.searchInputValue ≠ "" ∧
          lv.searchInputValue ∉ lv.searchHistory then
        (if maxSearchHistory <
            (lv.searchHistory ++ [lv.searchInputValue]).length then
          (lv.searchHistory ++ [lv.searchInputValue]).drop 1
        else lv.searchHistory ++ [lv.searchInputValue])
      else lv.searchHistory)) ∧
    (lv.searchHistory.length ≤ maxSearchHistory →
      (lv.executeSearch).searchHistory.length ≤ maxSearchHistory) ∧
    (lv.searchHistory.Nodup → (lv.executeSearch).searchHistory.Nodup) := by
  have hmain :
      (lv.executeSearch).searchHistory =
        (if lv.searchInputValue ≠ "" ∧
            lv.searchInputValue ∉ lv.searchHistory then
          (if maxSearchHistory <
              (lv.searchHistory ++ [lv.searchInputValue]).length then
            (lv.searchHistory ++ [lv.searchInputValue]).drop 1
          else lv.searchHistory ++ [lv.searchInputValue])
        else lv.searchHistory) := by
    rw [executeSearch_searchHistory lv]
    by_cases hq : lv.searchInputValue ≠ ""
    · rw [if_pos hq, addToSearchHistory_eq]
      dsimp only
      by_cases hmem : lv.searchInputValue ∈ lv.searchHistory
      · rw [if_pos hmem,
          if_neg (show ¬(lv.searchInputValue ≠ "" ∧
              lv.searchInputValue ∉ lv.searchHistory) from
            fun hand => hand.2 hmem)]
      · rw [if_neg hmem,
          if_pos (show lv.searchInputValue ≠ "" ∧
              lv.searchInputValue ∉ lv.searchHistory from ⟨hq, hmem⟩)]
    · rw [if_neg hq,
        if_neg (show ¬(lv.searchInputValue ≠ "" ∧
            lv.searchInputValue ∉ lv.searchHistory) from
          fun hand => hq hand.1)]
  refine ⟨hmain, ?_, ?_⟩
  · intro hlen
    rw [hmain]
    split
    · split
      · rw [List.length_drop, List.length_append]
        simp only [List.length_cons, List.length_nil]
        omega
      · rename_i hover
        rw [List.length_append] at hover ⊢
        simp only [List.length_cons, List.length_nil] at hover ⊢
        omega
    · exact hlen
  · intro hnd
    rw [hmain]
    split
    · rename_i hand
      have happ : (lv.searchHistory ++ [lv.searchInputValue]).Nodup := by
        simp [List.nodup_append, hnd, hand.2]
      split
      · exact happ.sublist (List.drop_sublist 1 _)
      · exact happ
    · exact hnd

/-- C9 witness: confirming the new non-empty query `"err"` over the history
`["a"]` appends it; the length bound and distinctness are preserved. -/
theorem search_history_dedup_fifo_witness :
    (LogViewer.executeSearch
        { searchInputValue := "err", searchHistory := ["a"] :
          LogViewer }).searchHistory = ["a", "err"] ∧
    (LogViewer.executeSearch
        { searchInputValue := "err", searchHistory := ["a"] :
          LogViewer }).searchHistory.length ≤ maxSearchHistory ∧
    (LogViewer.executeSearch
        { searchInputValue := "err", searchHistory := ["a"] :
          LogViewer }).searchHistory.Nodup :=
  ⟨((search_history_dedup_fifo _).1).trans (by decide),
    (search_history_dedup_fifo _).2.1 (by decide),
    (search_history_dedup_fifo _).2.2 (by decide)⟩


end Kubeoptic
